import Mathlib

/-
Verification of the workflow execution engine (package engine and its
handler set).  The Go source is shallowly embedded: Go maps become
association lists with first-match lookup (insertion prepends, so the
last insertion wins, as for a Go map), float64 values become rationals,
and json.RawMessage metadata is modelled post-parse by the Metadata
inductive (empty bytes, unparsable bytes, or a parsed JSON object).
Wall-clock data (Duration, Timestamp fields) is not modelled; numeric
message formatting (Go %.1f) is abstracted by fmtRat.
-/

namespace Engine

/-- Loosely typed values stored in ExecutionContext state and in step
outputs; mirrors the Go interface-typed map values used by the engine
(strings, float64 numbers, bools, nested objects). -/
inductive Value
| str : String → Value
| num : ℚ → Value
| bool : Bool → Value
| obj : List (String × Value) → Value

/-- First-match lookup in an association list; models Go map lookup
(insertion below prepends, so the most recent binding is found). -/
def lookupField : List (String × Value) → String → Option Value
| [], _ => none
| (k, v) :: rest, key => if k = key then some v else lookupField rest key

/-- ExecutionContext from context.go: the shared per-run state map and
the step counter.  (StartTime and the Go context are not modelled.) -/
structure ExecutionContext where
  state : List (String × Value)
  stepNumber : Nat

/-- ExecutionContext.Set: store a value in state (map overwrite). -/
def ExecutionContext.set (ec : ExecutionContext) (k : String) (v : Value) : ExecutionContext :=
  { ec with state := (k, v) :: ec.state }

/-- ExecutionContext.Get. -/
def ExecutionContext.get (ec : ExecutionContext) (k : String) : Option Value :=
  lookupField ec.state k

/-- ExecutionContext.GetString: the Go type assertion `.(string)` yields
the zero value "" when the key is absent or the value is not a string. -/
def ExecutionContext.getString (ec : ExecutionContext) (k : String) : String :=
  match lookupField ec.state k with
  | some (.str s) => s
  | _ => ""

/-- ExecutionContext.GetFloat: zero when absent or not a number. -/
def ExecutionContext.getFloat (ec : ExecutionContext) (k : String) : ℚ :=
  match lookupField ec.state k with
  | some (.num q) => q
  | _ => 0

/-- NewExecutionContext: empty state, step counter zero. -/
def newExecutionContext : ExecutionContext := ⟨[], 0⟩

/-- Node metadata (json.RawMessage), modelled post-parse: empty bytes,
bytes that fail to parse for any struct, or a parsed JSON object. -/
inductive Metadata
| empty
| malformed
| obj : List (String × Value) → Metadata

/-- Node from node.go. -/
structure Node where
  id : String
  type : String
  metadata : Metadata

/-- Edge from graph.go: SourceHandle is "true", "false", or empty. -/
structure Edge where
  sourceID : String
  targetID : String
  sourceHandle : String

/-- ExecutionStep from node.go (Duration and Timestamp omitted: wall
clock is not modelled).  Output nil is modelled as none. -/
structure ExecutionStep where
  stepNumber : Nat
  nodeType : String
  nodeID : String
  status : String
  output : Option (List (String × Value))
  error : String

/-- The Go zero value ExecutionStep\x7b\x7d returned by handlers on error. -/
def zeroStep : ExecutionStep := ⟨0, "", "", "", none, ""⟩

/-- A node handler: receives the context (by pointer in Go, so the
updated context is returned) and the node, yields a step and an
optional error. -/
abbrev NodeHandler := ExecutionContext → Node → ExecutionContext × ExecutionStep × Option String

/-- Registry from node.go: a map from node type to handler. -/
structure Registry where
  handlers : List (String × NodeHandler)

/-- Registry.Get. -/
def Registry.get (r : Registry) (t : String) : Option NodeHandler :=
  (r.handlers.find? (fun p => p.1 == t)).map Prod.snd

/-- Graph from graph.go: node index, edge list (kept globally in
insertion order; outgoing edges are recovered by filtering, which
preserves the per-source insertion order of the Go adjacency slices),
and the cached start-node id ("" when none recorded). -/
structure Graph where
  nodes : List (String × Node)
  edges : List Edge
  startNode : String

/-- NewGraph. -/
def Graph.empty : Graph := ⟨[], [], ""⟩

/-- Graph.AddNode: index the node by id (overwriting any previous node
with that id) and record it as start node if its type is "start". -/
def Graph.addNode (g : Graph) (node : Node) : Graph :=
  { g with
    nodes := (node.id, node) :: g.nodes,
    startNode := if node.type = "start" then node.id else g.startNode }

/-- Graph.AddEdge: append to the source's outgoing list. -/
def Graph.addEdge (g : Graph) (e : Edge) : Graph :=
  { g with edges := g.edges ++ [e] }

/-- Graph.Validate. -/
def Graph.validate (g : Graph) : Option String :=
  if g.startNode = "" then some "graph has no start node" else none

/-- Graph.GetNode. -/
def Graph.getNode (g : Graph) (id : String) : Option Node :=
  (g.nodes.find? (fun p => p.1 == id)).map Prod.snd

/-- Graph.GetOutgoingEdges. -/
def Graph.getOutgoingEdges (g : Graph) (nodeID : String) : List Edge :=
  g.edges.filter (fun e => e.sourceID == nodeID)

/-- Building a graph from node and edge lists in order, as the service
layer does: AddNode for each node, then AddEdge for each edge. -/
def buildGraph (ns : List Node) (es : List Edge) : Graph :=
  es.foldl Graph.addEdge (ns.foldl Graph.addNode Graph.empty)

/-- The distinct node ids indexed by the graph. -/
def nodeKeys (g : Graph) : List String := (g.nodes.map Prod.fst).dedup

/-- Number of distinct node ids. -/
def distinctNodeCount (g : Graph) : Nat := (nodeKeys g).length

/-- The nested type assertions of getNextNode: Output non-nil, carrying
a "conditionResult" object whose "result" field is a bool. -/
def stepConditionResult (step : ExecutionStep) : Option Bool :=
  match step.output with
  | none => none
  | some out =>
    match lookupField out "conditionResult" with
    | some (.obj cr) =>
      match lookupField cr "result" with
      | some (.bool b) => some b
      | _ => none
    | _ => none

/-- Executor.getNextNode: no outgoing edges yields "" (traversal stops);
a boolean condition result selects the first edge labeled "true"/"false"
accordingly, falling back to the first edge when no label matches; any
other step follows the first outgoing edge. -/
def getNextNode (g : Graph) (currentNodeID : String) (step : ExecutionStep) : String :=
  match g.getOutgoingEdges currentNodeID with
  | [] => ""
  | e0 :: rest =>
    match stepConditionResult step with
    | some result =>
      match (e0 :: rest).find? (fun e => e.sourceHandle == (if result then "true" else "false")) with
      | some e => e.targetID
      | none => e0.targetID
    | none => e0.targetID

/-- The traversal loop of Executor.Execute, with explicit fuel (the Go
loop is a while loop; execLoop_isSome below proves that
distinctNodeCount g + 1 iterations always suffice, so the fuel never
runs out at the bound used by execute).  Mirrors the Go body exactly:
cycle check, visited marking, node lookup, handler lookup, step-counter
increment, handler call, error wrapping, step append, next-node
selection, end check. -/
def execLoop (g : Graph) (reg : Registry) : Nat → ExecutionContext → List ExecutionStep → List String → String → Option (List ExecutionStep × Option String)
| 0, _, _, _, _ => none
| fuel + 1, ec, steps, visited, currentNodeID =>
  if currentNodeID = "" then some (steps, none)
  else if visited.contains currentNodeID then
    some ([], some ("cycle detected at node " ++ currentNodeID))
  else
    match g.getNode currentNodeID with
    | none => some ([], some ("node not found: " ++ currentNodeID))
    | some node =>
      match Registry.get reg node.type with
      | none => some ([], some ("no handler for node type: " ++ node.type))
      | some handler =>
        let ec1 := { ec with stepNumber := ec.stepNumber + 1 }
        match handler ec1 node with
        | (_, step, some e) =>
          some (steps ++ [{ step with status := "failed", error := e }], some e)
        | (ec2, step, none) =>
          let steps2 := steps ++ [step]
          let nextNodeID := getNextNode g currentNodeID step
          if node.type = "end" then some (steps2, none)
          else execLoop g reg fuel ec2 steps2 (currentNodeID :: visited) nextNodeID

/-- Copying the initial state into a fresh ExecutionContext. -/
def initialContext (initialState : List (String × Value)) : ExecutionContext :=
  initialState.foldl (fun ec kv => ec.set kv.1 kv.2) newExecutionContext

/-- Executor.Execute: validate, copy the initial state, run the loop
from the start node with an empty visited set. -/
def execute (g : Graph) (reg : Registry) (initialState : List (String × Value)) : List ExecutionStep × Option String :=
  match g.validate with
  | some e => ([], some e)
  | none =>
    (execLoop g reg (distinctNodeCount g + 1) (initialContext initialState) [] [] g.startNode).getD
      ([], some "loop bound exceeded")

/-- Abstraction of Go %.1f formatting for messages (message text does
not affect any verified property). -/
def fmtRat (q : ℚ) : String :=
  if q.den = 1 then toString q.num else toString q.num ++ "/" ++ toString q.den

/-- evaluateCondition from condition.go: note the recognized tags are
exactly greater_than, less_than, equals, greater_than_or_equal,
less_than_or_equal; anything else (including "equal_to") falls to the
default and yields false. -/
def evaluateCondition (temperature : ℚ) (operator : String) (threshold : ℚ) : Bool :=
  match operator with
  | "greater_than" => decide (temperature > threshold)
  | "less_than" => decide (temperature < threshold)
  | "equals" => decide (temperature = threshold)
  | "greater_than_or_equal" => decide (temperature ≥ threshold)
  | "less_than_or_equal" => decide (temperature ≤ threshold)
  | _ => false

/-- Reading a string field from a parsed JSON object into a Go struct
field: absent yields the zero value, a non-string value is an unmarshal
type error. -/
def jsonStringField (fields : List (String × Value)) (key errMsg : String) : Except String String :=
  match lookupField fields key with
  | none => .ok ""
  | some (.str s) => .ok s
  | some _ => .error errMsg

/-- Reading a number field from a parsed JSON object into a Go float64
struct field. -/
def jsonNumberField (fields : List (String × Value)) (key errMsg : String) : Except String ℚ :=
  match lookupField fields key with
  | none => .ok 0
  | some (.num q) => .ok q
  | some _ => .error errMsg

/-- Unmarshalling condition metadata into (operator, threshold); empty
metadata is skipped in Go, leaving the zero struct. -/
def unmarshalConditionMetadata : Metadata → Except String (String × ℚ)
| .empty => .ok ("", 0)
| .malformed => .error "failed to parse condition metadata"
| .obj fields => do
  let operator ← jsonStringField fields "operator" "failed to parse condition metadata"
  let threshold ← jsonNumberField fields "threshold" "failed to parse condition metadata"
  pure (operator, threshold)

/-- Unmarshalling email metadata into the subject field. -/
def unmarshalEmailMetadata : Metadata → Except String String
| .empty => .ok ""
| .malformed => .error "failed to parse email node metadata"
| .obj fields => jsonStringField fields "subject" "failed to parse email node metadata"

/-- StartHandler.Execute from start.go. -/
def startHandler : NodeHandler := fun ec node =>
  (ec,
   { stepNumber := ec.stepNumber, nodeType := "start", nodeID := node.id,
     status := "completed",
     output := some [("message", .str "Workflow started")], error := "" },
   none)

/-- EndHandler.Execute from end.go. -/
def endHandler : NodeHandler := fun ec node =>
  (ec,
   { stepNumber := ec.stepNumber, nodeType := "end", nodeID := node.id,
     status := "completed",
     output := some [("message", .str "Workflow completed")], error := "" },
   none)

/-- FormHandler.Execute from form.go: echoes the three form fields,
never fails. -/
def formHandler : NodeHandler := fun ec node =>
  (ec,
   { stepNumber := ec.stepNumber, nodeType := "form", nodeID := node.id,
     status := "completed",
     output := some
       [("message", .str "User input collected"),
        ("formData", .obj
          [("name", .str (ec.getString "form.name")),
           ("email", .str (ec.getString "form.email")),
           ("city", .str (ec.getString "form.city"))])],
     error := "" },
   none)

/-- The injected weather lookup function (the Go context argument is
not modelled). -/
abbrev WeatherFn := String → Except String ℚ

/-- WeatherHandler.Execute from weather.go: fails on empty city, unset
weather function, or a weather-function error; on success stores the
temperature in state and returns a completed step. -/
def weatherHandler (weatherFn : Option WeatherFn) : NodeHandler := fun ec node =>
  let city := ec.getString "form.city"
  if city = "" then (ec, zeroStep, some "city not provided in form data")
  else
    match weatherFn with
    | none => (ec, zeroStep, some "weather client not configured")
    | some f =>
      match f city with
      | .error e => (ec, zeroStep, some ("failed to fetch weather for " ++ city ++ ": " ++ e))
      | .ok temperature =>
        let ec1 := ec.set "weather.temperature" (.num temperature)
        (ec1,
         { stepNumber := ec1.stepNumber, nodeType := "integration", nodeID := node.id,
           status := "completed",
           output := some
             [("message", .str ("Fetched weather data for " ++ city)),
              ("apiResponse", .obj
                [("endpoint", .str "https://api.open-meteo.com/v1/forecast"),
                 ("method", .str "GET"),
                 ("statusCode", .num 200),
                 ("data", .obj
                   [("temperature", .num temperature),
                    ("city", .str city)])])],
           error := "" },
         none)

/-- ConditionHandler.Execute from condition.go. -/
def conditionHandler : NodeHandler := fun ec node =>
  match unmarshalConditionMetadata node.metadata with
  | .error e => (ec, zeroStep, some e)
  | .ok (operator, threshold) =>
    if operator = "" then (ec, zeroStep, some "operator not specified in condition node metadata")
    else
      let temperature := ec.getFloat "weather.temperature"
      let result := evaluateCondition temperature operator threshold
      (ec,
       { stepNumber := ec.stepNumber, nodeType := "condition", nodeID := node.id,
         status := "completed",
         output := some
           [("message", .str ("Condition evaluated: temperature " ++ fmtRat temperature ++ "°C " ++ operator ++ " " ++ fmtRat threshold ++ "°C")),
            ("conditionResult", .obj
              [("expression", .str ("temperature " ++ operator ++ " " ++ fmtRat threshold)),
               ("result", .bool result),
               ("temperature", .num temperature),
               ("operator", .str operator),
               ("threshold", .num threshold)])],
         error := "" },
       none)

/-- EmailHandler.Execute from email.go: fails on empty recipient or
malformed metadata; composes subject (default "Weather Alert") and
body.  This handler has no injected send function and never sends. -/
def emailHandler : NodeHandler := fun ec node =>
  let toAddr := ec.getString "form.email"
  if toAddr = "" then (ec, zeroStep, some "recipient email not provided in form data")
  else
    match unmarshalEmailMetadata node.metadata with
    | .error e => (ec, zeroStep, some e)
    | .ok subjectRaw =>
      let subject := if subjectRaw = "" then "Weather Alert" else subjectRaw
      let name := ec.getString "form.name"
      let city := ec.getString "form.city"
      let temperature := ec.getFloat "weather.temperature"
      let body := "Hi " ++ name ++ ", weather alert for " ++ city ++ "! Temperature is " ++ fmtRat temperature ++ "°C!"
      (ec,
       { stepNumber := ec.stepNumber, nodeType := "email", nodeID := node.id,
         status := "completed",
         output := some
           [("message", .str "Alert email sent"),
            ("emailContent", .obj
              [("to", .str toAddr),
               ("subject", .str subject),
               ("body", .str body)])],
         error := "" },
       none)

/-- The provided handler set registered by the service layer. -/
def defaultRegistry (weatherFn : Option WeatherFn) : Registry :=
  ⟨[("start", startHandler), ("end", endHandler), ("form", formHandler),
    ("integration", weatherHandler weatherFn), ("condition", conditionHandler),
    ("email", emailHandler)]⟩

/-- Node ids of the graph not yet in the visited set; the loop measure. -/
def unvisitedCount (g : Graph) (visited : List String) : Nat :=
  ((nodeKeys g).filter (fun k => !(visited.contains k))).length

/-- The subject stored inside a step's emailContent output object. -/
def stepEmailSubject (step : ExecutionStep) : Option Value :=
  match step.output with
  | none => none
  | some out =>
    match lookupField out "emailContent" with
    | some (.obj fields) => lookupField fields "subject"
    | _ => none

/-- A handler that leaves the step counter unchanged and, on success,
copies it into the produced step.  All six provided handlers satisfy
this. -/
def HandlerNumbersSteps (h : NodeHandler) : Prop :=
  ∀ ec node, (h ec node).1.stepNumber = ec.stepNumber ∧
    ((h ec node).2.2 = none → (h ec node).2.1.stepNumber = ec.stepNumber)

/-- Every handler reachable through the registry numbers its steps. -/
def RegistryNumbersSteps (reg : Registry) : Prop :=
  ∀ t h, Registry.get reg t = some h → HandlerNumbersSteps h

/-- Scenario D graph: a node of unregistered type reachable from start. -/
def gD : Graph := buildGraph [⟨"s", "start", .empty⟩, ⟨"u", "unknown_type", .empty⟩] [⟨"s", "u", ""⟩]

/-- Registry with only the start handler registered. -/
def regD : Registry := ⟨[("start", startHandler)]⟩

/-- A start-to-end graph. -/
def gW : Graph := buildGraph [⟨"s", "start", .empty⟩, ⟨"e", "end", .empty⟩] [⟨"s", "e", ""⟩]

/-- The trace produced by executing gW with the provided handlers. -/
def stepsW : List ExecutionStep :=
  [⟨1, "start", "s", "completed", some [("message", .str "Workflow started")], ""⟩,
   ⟨2, "end", "e", "completed", some [("message", .str "Workflow completed")], ""⟩]

/-- A graph whose integration node makes the weather handler fail
(weather function unset). -/
def gBad : Graph := buildGraph [⟨"s", "start", .empty⟩, ⟨"w", "integration", .empty⟩] [⟨"s", "w", ""⟩]

/-- A graph with two labeled edges out of a condition node "c". -/
def gC3 : Graph := buildGraph [] [⟨"c", "f1", "false"⟩, ⟨"c", "t1", "true"⟩]

/-- A step carrying conditionResult.result = true. -/
def stepTrue : ExecutionStep :=
  ⟨2, "condition", "c", "completed", some [("conditionResult", .obj [("result", .bool true)])], ""⟩

/-- A context whose form.city holds a non-string value. -/
def ecC7 : ExecutionContext := ⟨[("form.city", Value.num 1)], 0⟩

/-- A context whose form.city is the string "Melbourne". -/
def ecW : ExecutionContext := ⟨[("form.city", Value.str "Melbourne")], 3⟩

/-- An integration node with empty metadata. -/
def nodeW : Node := ⟨"w", "integration", .empty⟩

/-- A context carrying a recipient email. -/
def ecE : ExecutionContext := ⟨[("form.email", Value.str "alice@example.com")], 5⟩

/-- An email node with empty metadata (subject defaults). -/
def nodeE : Node := ⟨"e", "email", .empty⟩

/- ------------------------------------------------------------------ -/
/- Helper lemmas                                                       -/
/- ------------------------------------------------------------------ -/

/-- One loop iteration on an already-visited node id aborts with the
cycle error and a nil trace. -/
lemma execLoop_cycle (g : Graph) (reg : Registry) (fuel : Nat) (ec : ExecutionContext)
    (steps : List ExecutionStep) (visited : List String) (cur : String)
    (hcur : cur ≠ "") (hvis : visited.contains cur = true) :
    execLoop g reg (fuel + 1) ec steps visited cur =
      some ([], some ("cycle detected at node " ++ cur)) := by
  have hv : cur ∈ visited := by simpa using hvis
  simp [execLoop, hcur, hv]

/-- One loop iteration on a missing node id fails with a nil trace. -/
lemma execLoop_notFound (g : Graph) (reg : Registry) (fuel : Nat) (ec : ExecutionContext)
    (steps : List ExecutionStep) (visited : List String) (cur : String)
    (hcur : cur ≠ "") (hvis : visited.contains cur = false) (hnode : g.getNode cur = none) :
    execLoop g reg (fuel + 1) ec steps visited cur =
      some ([], some ("node not found: " ++ cur)) := by
  have hv : cur ∉ visited := by simpa using hvis
  simp [execLoop, hcur, hv, hnode]

/-- One loop iteration on a node of unregistered type fails with a nil
trace. -/
lemma execLoop_noHandler (g : Graph) (reg : Registry) (fuel : Nat) (ec : ExecutionContext)
    (steps : List ExecutionStep) (visited : List String) (cur : String) (node : Node)
    (hcur : cur ≠ "") (hvis : visited.contains cur = false) (hnode : g.getNode cur = some node)
    (hreg : Registry.get reg node.type = none) :
    execLoop g reg (fuel + 1) ec steps visited cur =
      some ([], some ("no handler for node type: " ++ node.type)) := by
  have hv : cur ∉ visited := by simpa using hvis
  simp [execLoop, hcur, hv, hnode, hreg]

/-- One loop iteration whose handler errors returns the accumulated
steps with the failed step appended, and the handler's error. -/
lemma execLoop_handlerError (g : Graph) (reg : Registry) (fuel : Nat) (ec : ExecutionContext)
    (steps : List ExecutionStep) (visited : List String) (cur : String) (node : Node)
    (handler : NodeHandler) (ec2 : ExecutionContext) (step : ExecutionStep) (e : String)
    (hcur : cur ≠ "") (hvis : visited.contains cur = false) (hnode : g.getNode cur = some node)
    (hreg : Registry.get reg node.type = some handler)
    (hh : handler { ec with stepNumber := ec.stepNumber + 1 } node = (ec2, step, some e)) :
    execLoop g reg (fuel + 1) ec steps visited cur =
      some (steps ++ [{ step with status := "failed", error := e }], some e) := by
  have hv : cur ∉ visited := by simpa using hvis
  simp [execLoop, hcur, hv, hnode, hreg, hh]

/-- One loop iteration whose handler succeeds on an end node appends
the step and returns normally. -/
lemma execLoop_success_end (g : Graph) (reg : Registry) (fuel : Nat) (ec : ExecutionContext)
    (steps : List ExecutionStep) (visited : List String) (cur : String) (node : Node)
    (handler : NodeHandler) (ec2 : ExecutionContext) (step : ExecutionStep)
    (hcur : cur ≠ "") (hvis : visited.contains cur = false) (hnode : g.getNode cur = some node)
    (hreg : Registry.get reg node.type = some handler)
    (hh : handler { ec with stepNumber := ec.stepNumber + 1 } node = (ec2, step, none))
    (hend : node.type = "end") :
    execLoop g reg (fuel + 1) ec steps visited cur = some (steps ++ [step], none) := by
  have hnv : ¬ (visited.contains cur = true) := ne_true_of_eq_false hvis
  simp only [execLoop]
  rw [if_neg hcur, if_neg hnv]
  simp only [hnode, hreg, hh]
  rw [if_pos hend]

/-- One loop iteration whose handler succeeds on a non-end node appends
the step and continues at the selected next node with the returned
context and the node marked visited. -/
lemma execLoop_success_cont (g : Graph) (reg : Registry) (fuel : Nat) (ec : ExecutionContext)
    (steps : List ExecutionStep) (visited : List String) (cur : String) (node : Node)
    (handler : NodeHandler) (ec2 : ExecutionContext) (step : ExecutionStep)
    (hcur : cur ≠ "") (hvis : visited.contains cur = false) (hnode : g.getNode cur = some node)
    (hreg : Registry.get reg node.type = some handler)
    (hh : handler { ec with stepNumber := ec.stepNumber + 1 } node = (ec2, step, none))
    (hend : node.type ≠ "end") :
    execLoop g reg (fuel + 1) ec steps visited cur =
      execLoop g reg fuel ec2 (steps ++ [step]) (cur :: visited) (getNextNode g cur step) := by
  have hnv : ¬ (visited.contains cur = true) := ne_true_of_eq_false hvis
  simp only [execLoop]
  rw [if_neg hcur, if_neg hnv]
  simp only [hnode, hreg, hh]
  rw [if_neg hend]

/- ------------------------------------------------------------------ -/
/- Claims                                                              -/
/- ------------------------------------------------------------------ -/

/-- C1 (amended): any failure during traversal halts the run
immediately with a non-nil error, but the steps accumulated so far are
returned only when a handler returns an error (with the failed step
appended); on a detected cycle, a dangling edge, or an unregistered
node type, Execute returns a nil (empty) trace together with the
error. -/
theorem c1_failure_propagation (g : Graph) (reg : Registry) (fuel : Nat)
    (ec : ExecutionContext) (steps : List ExecutionStep) (visited : List String)
    (cur : String) (hcur : cur ≠ "") :
    (visited.contains cur = true →
      execLoop g reg (fuel + 1) ec steps visited cur =
        some ([], some ("cycle detected at node " ++ cur))) ∧
    (visited.contains cur = false → g.getNode cur = none →
      execLoop g reg (fuel + 1) ec steps visited cur =
        some ([], some ("node not found: " ++ cur))) ∧
    (∀ node, visited.contains cur = false → g.getNode cur = some node →
      Registry.get reg node.type = none →
      execLoop g reg (fuel + 1) ec steps visited cur =
        some ([], some ("no handler for node type: " ++ node.type))) ∧
    (∀ node handler ec2 step e, visited.contains cur = false →
      g.getNode cur = some node → Registry.get reg node.type = some handler →
      handler { ec with stepNumber := ec.stepNumber + 1 } node = (ec2, step, some e) →
      execLoop g reg (fuel + 1) ec steps visited cur =
        some (steps ++ [{ step with status := "failed", error := e }], some e)) := by
  refine ⟨?_, ?_, ?_, ?_⟩
  · intro hvis; exact execLoop_cycle g reg fuel ec steps visited cur hcur hvis
  · intro hvis hnode; exact execLoop_notFound g reg fuel ec steps visited cur hcur hvis hnode
  · intro node hvis hnode hreg
    exact execLoop_noHandler g reg fuel ec steps visited cur node hcur hvis hnode hreg
  · intro node handler ec2 step e hvis hnode hreg hh
    exact execLoop_handlerError g reg fuel ec steps visited cur node handler ec2 step e
      hcur hvis hnode hreg hh

/-- Witness for C1: a cycle abort at a concrete node returns a nil
trace and the cycle error. -/
theorem c1_witness :
    execLoop Graph.empty ⟨[]⟩ 1 newExecutionContext [] ["a"] "a" =
      some ([], some ("cycle detected at node " ++ "a")) :=
  (c1_failure_propagation Graph.empty ⟨[]⟩ 0 newExecutionContext [] ["a"] "a"
    (by decide)).1 (by decide)

/-- Counterexample to C1 as stated: a node of unregistered type
reachable from start (the spec's Scenario D).  Execute returns a
non-nil error but a nil trace, not a trace containing the one step of
the preceding start node. -/
theorem c1_counterexample :
    execute gD regD [] = ([], some "no handler for node type: unknown_type") ∧
    ([] : List ExecutionStep).length ≠ 1 :=
  ⟨rfl, by decide⟩

/-- C2 (amended): the comparator semantics of evaluateCondition.
"equal_to" is not a recognized operator tag of this handler and falls
to the default, yielding false; "equals" performs the equality
comparison. -/
theorem c2_comparator (v t : ℚ) :
    evaluateCondition v "greater_than" t = decide (v > t) ∧
    evaluateCondition v "less_than" t = decide (v < t) ∧
    evaluateCondition v "equals" t = decide (v = t) ∧
    evaluateCondition v "equal_to" t = false ∧
    evaluateCondition v "greater_than_or_equal" t = decide (v ≥ t) ∧
    evaluateCondition v "less_than_or_equal" t = decide (v ≤ t) :=
  ⟨rfl, rfl, rfl, rfl, rfl, rfl⟩

/-- Counterexample to C2 as stated: at value = threshold = 0 the claim
demands that "equal_to" yield the equality comparison (true), but the
code yields false. -/
theorem c2_counterexample :
    evaluateCondition 0 "equal_to" 0 ≠ decide ((0 : ℚ) = 0) := by
  decide

/-- C3: branch selection.  With no outgoing edges getNextNode returns
"" and the loop then stops normally; with a boolean condition result
the first edge labeled "true"/"false" accordingly is followed, falling
back to the first declared edge when no label matches; without a
condition result the first declared edge is followed. -/
theorem c3_branch_selection (g : Graph) (cur : String) (step : ExecutionStep) :
    (g.getOutgoingEdges cur = [] → getNextNode g cur step = "") ∧
    (∀ (reg : Registry) (fuel : Nat) (ec : ExecutionContext)
       (steps : List ExecutionStep) (visited : List String),
      execLoop g reg (fuel + 1) ec steps visited "" = some (steps, none)) ∧
    (∀ e0 rest, g.getOutgoingEdges cur = e0 :: rest →
      (stepConditionResult step = none → getNextNode g cur step = e0.targetID) ∧
      (∀ b, stepConditionResult step = some b →
        (∀ em, (e0 :: rest).find?
            (fun e => e.sourceHandle == (if b then "true" else "false")) = some em →
          getNextNode g cur step = em.targetID) ∧
        ((e0 :: rest).find?
            (fun e => e.sourceHandle == (if b then "true" else "false")) = none →
          getNextNode g cur step = e0.targetID))) := by
  refine ⟨?_, ?_, ?_⟩
  · intro h; simp [getNextNode, h]
  · intro reg fuel ec steps visited; simp [execLoop]
  · intro e0 rest h
    refine ⟨?_, ?_⟩
    · intro hnone; simp [getNextNode, h, hnone]
    · intro b hb
      refine ⟨?_, ?_⟩
      · intro em hem; simp [getNextNode, h, hb, hem]
      · intro hnone; simp [getNextNode, h, hb, hnone]

/-- Witness for C3: a true condition result follows the edge labeled
"true" even when it is declared second. -/
theorem c3_witness : getNextNode gC3 "c" stepTrue = "t1" :=
  ((((c3_branch_selection gC3 "c" stepTrue).2.2 ⟨"c", "f1", "false"⟩
      [⟨"c", "t1", "true"⟩] rfl).2 true rfl).1 ⟨"c", "t1", "true"⟩ rfl)

/-- C4: when the handler of the current node returns an error, the step
is marked failed, carries the error message, is appended as the last
element of the trace, and the loop returns (steps, error) immediately. -/
theorem c4_handler_error (g : Graph) (reg : Registry) (fuel : Nat)
    (ec : ExecutionContext) (steps : List ExecutionStep) (visited : List String)
    (cur : String) (node : Node) (handler : NodeHandler) (ec2 : ExecutionContext)
    (step : ExecutionStep) (e : String)
    (hcur : cur ≠ "") (hvis : visited.contains cur = false)
    (hnode : g.getNode cur = some node) (hreg : Registry.get reg node.type = some handler)
    (hh : handler { ec with stepNumber := ec.stepNumber + 1 } node = (ec2, step, some e)) :
    execLoop g reg (fuel + 1) ec steps visited cur =
      some (steps ++ [{ step with status := "failed", error := e }], some e) ∧
    (steps ++ [{ step with status := "failed", error := e }]).getLast? =
      some { step with status := "failed", error := e } :=
  ⟨execLoop_handlerError g reg fuel ec steps visited cur node handler ec2 step e
      hcur hvis hnode hreg hh,
   List.getLast?_concat steps⟩

/-- Witness for C4: the weather handler with no weather function fails
on node "w" of gBad; the zero step is wrapped as failed and appended. -/
theorem c4_witness :
    execLoop gBad (defaultRegistry none) 1 ⟨[("form.city", Value.str "X")], 1⟩ [] ["s"] "w" =
      some ([{ zeroStep with status := "failed", error := "weather client not configured" }],
        some "weather client not configured") :=
  (c4_handler_error gBad (defaultRegistry none) 0 ⟨[("form.city", Value.str "X")], 1⟩ []
    ["s"] "w" ⟨"w", "integration", .empty⟩ (weatherHandler none)
    ⟨[("form.city", Value.str "X")], 2⟩ zeroStep "weather client not configured"
    (by decide) rfl rfl rfl rfl).1

/-- C9: Execute validates before doing anything else; with no recorded
start node it returns a nil trace and the validation error, for every
registry and every initial state — no handler is invoked and the
result does not depend on the initial state. -/
theorem c9_validation_first (g : Graph) (h : g.startNode = "") :
    ∀ (reg : Registry) (st : List (String × Value)),
      execute g reg st = ([], some "graph has no start node") := by
  intro reg st
  simp [execute, Graph.validate, h]

/-- Witness for C9: the empty graph fails validation. -/
theorem c9_witness :
    execute Graph.empty ⟨[]⟩ [] = ([], some "graph has no start node") :=
  c9_validation_first Graph.empty rfl ⟨[]⟩ []

/-- AddEdge never touches the recorded start node. -/
lemma foldl_addEdge_startNode (es : List Edge) :
    ∀ g : Graph, (es.foldl Graph.addEdge g).startNode = g.startNode := by
  induction es with
  | nil => intro g; rfl
  | cons e rest ih => intro g; rw [List.foldl_cons]; exact ih _

/-- Adding nodes records as start node the last node of type "start"
(found first in the reversed list), keeping the previous value when
none occurs. -/
lemma foldl_addNode_startNode (ns : List Node) :
    ∀ g : Graph, (ns.foldl Graph.addNode g).startNode =
      ((ns.reverse.find? (fun n => n.type == "start")).map Node.id).getD g.startNode := by
  induction ns with
  | nil => intro g; rfl
  | cons n rest ih =>
    intro g
    rw [List.foldl_cons, List.reverse_cons, ih, List.find?_append]
    cases hfind : rest.reverse.find? (fun n => n.type == "start") with
    | some m => simp [Option.or]
    | none =>
      by_cases ht : n.type = "start"
      · have hbt : (n.type == "start") = true := by simp [ht]
        simp [Option.or, List.find?, hbt, Graph.addNode, ht]
      · have hbt : (n.type == "start") = false := by simp [ht]
        simp [Option.or, List.find?, hbt, Graph.addNode, ht]

/-- C5 (amended): the recorded entry point is the id of the last node
of type "start" in the added node list (empty when there is none), and
Validate fails exactly when that recorded id is empty — i.e. when no
start node was added, or when the last-added start node has an empty
id. -/
theorem c5_start_recording (ns : List Node) (es : List Edge) :
    (buildGraph ns es).startNode =
      (((ns.reverse.find? (fun n => n.type == "start")).map Node.id).getD "") ∧
    (((buildGraph ns es).validate).isSome ↔
      (((ns.reverse.find? (fun n => n.type == "start")).map Node.id).getD "") = "") := by
  have h1 : (buildGraph ns es).startNode =
      (((ns.reverse.find? (fun n => n.type == "start")).map Node.id).getD "") := by
    rw [buildGraph, foldl_addEdge_startNode, foldl_addNode_startNode]; rfl
  refine ⟨h1, ?_⟩
  rw [Graph.validate, h1]
  by_cases h : (((ns.reverse.find? (fun n => n.type == "start")).map Node.id).getD "") = ""
  · simp [h]
  · simp [h]

/-- Counterexample to C5 as stated: a start node with an empty id is
added, yet Validate still reports the no-start-node error, refuting
"exactly when no node of type start was added". -/
theorem c5_counterexample :
    ((buildGraph [⟨"", "start", .empty⟩] []).validate).isSome ∧
    (⟨"", "start", Metadata.empty⟩ : Node).type = "start" :=
  ⟨rfl, rfl⟩

/-- A successful node lookup means the id is among the graph's keys. -/
lemma getNode_mem_nodeKeys {g : Graph} {id : String} {node : Node}
    (h : g.getNode id = some node) : id ∈ nodeKeys g := by
  unfold Graph.getNode at h
  cases hfind : g.nodes.find? (fun p => p.1 == id) with
  | none => rw [hfind] at h; cases h
  | some p =>
    have hmem := List.mem_of_find?_eq_some hfind
    have hp : p.1 = id := by simpa using List.find?_some hfind
    rw [nodeKeys, List.mem_dedup, ← hp]
    exact List.mem_map_of_mem Prod.fst hmem

/-- Extending the visited set cannot increase the measure. -/
lemma unvisitedCount_cons_le (l : List String) (cur : String) (visited : List String) :
    (l.filter (fun k => !((cur :: visited).contains k))).length ≤
      (l.filter (fun k => !(visited.contains k))).length := by
  induction l with
  | nil => simp
  | cons a t ih =>
    rw [List.filter_cons, List.filter_cons]
    by_cases h2 : visited.contains a = true
    · have h1 : (cur :: visited).contains a = true := by
        simp only [List.contains_cons, h2, Bool.or_true]
      rw [h1, h2]
      simpa using ih
    · have h2' : visited.contains a = false := eq_false_of_ne_true h2
      by_cases h1 : (cur :: visited).contains a = true
      · rw [h1, h2']
        simp only [Bool.not_true, Bool.not_false, if_false, if_true,
          Bool.false_eq_true, List.length_cons]
        omega
      · have h1' : (cur :: visited).contains a = false := eq_false_of_ne_true h1
        rw [h1', h2']
        simp only [Bool.not_false, if_true, List.length_cons]
        omega

/-- Visiting a graph node strictly decreases the measure. -/
lemma unvisitedCount_lt (g : Graph) (cur : String) (visited : List String)
    (hmem : cur ∈ nodeKeys g) (hnv : visited.contains cur = false) :
    unvisitedCount g (cur :: visited) < unvisitedCount g visited := by
  obtain ⟨s, t, hst⟩ := List.append_of_mem hmem
  unfold unvisitedCount
  rw [hst]
  have hkeep : (!(visited.contains cur)) = true := by rw [hnv]; rfl
  have hdrop : (!((cur :: visited).contains cur)) = false := by
    simp only [List.contains_cons, beq_self_eq_true, Bool.true_or, Bool.not_true]
  rw [List.filter_append, List.filter_append, List.length_append, List.length_append,
    List.filter_cons, List.filter_cons, hkeep, hdrop]
  have hs := unvisitedCount_cons_le s cur visited
  have ht := unvisitedCount_cons_le t cur visited
  simp only [Bool.false_eq_true, if_false, if_true, List.length_cons]
  omega

/-- The loop needs at most unvisitedCount + 1 iterations: with fuel
strictly above the measure it always returns. -/
lemma execLoop_isSome (g : Graph) (reg : Registry) :
    ∀ (fuel : Nat) (ec : ExecutionContext) (steps : List ExecutionStep)
      (visited : List String) (cur : String),
      unvisitedCount g visited < fuel →
      (execLoop g reg fuel ec steps visited cur).isSome := by
  intro fuel
  induction fuel with
  | zero => intro ec steps visited cur h; omega
  | succ n ih =>
    intro ec steps visited cur h
    by_cases hcur : cur = ""
    · simp [execLoop, hcur]
    · by_cases hvis : visited.contains cur
      · have hv : cur ∈ visited := by simpa using hvis
        simp [execLoop, hcur, hv]
      · have hv : cur ∉ visited := by simpa using hvis
        cases hnode : g.getNode cur with
        | none => simp [execLoop, hcur, hv, hnode]
        | some node =>
          cases hreg : Registry.get reg node.type with
          | none => simp [execLoop, hcur, hv, hnode, hreg]
          | some handler =>
            rcases hh : handler { ec with stepNumber := ec.stepNumber + 1 } node
              with ⟨ec2, step, err⟩
            cases err with
            | some e => simp [execLoop, hcur, hv, hnode, hreg, hh]
            | none =>
              by_cases hend : node.type = "end"
              · simp only [execLoop]
                simp [hcur, hv, hnode, hreg, hh]
                simp [hend]
              · have hlt : unvisitedCount g (cur :: visited) < n := by
                  have h1 := unvisitedCount_lt g cur visited (getNode_mem_nodeKeys hnode)
                    (by simpa using hvis)
                  omega
                have hrec := ih ec2 (steps ++ [step]) (cur :: visited)
                  (getNextNode g cur step) hlt
                simpa [execLoop, hcur, hv, hnode, hreg, hh, hend] using hrec

/-- C6: the traversal loop terminates within distinctNodeCount + 1
iterations — each non-final iteration marks a previously unvisited node
id that is indexed by the graph, so with fuel at least one more than
the number of distinct node ids the loop always returns (for every
graph, registry and initial state); this is the fuel execute itself
uses. -/
theorem c6_termination (g : Graph) (reg : Registry) (initialState : List (String × Value))
    (fuel : Nat) (hfuel : distinctNodeCount g + 1 ≤ fuel) :
    (execLoop g reg fuel (initialContext initialState) [] [] g.startNode).isSome := by
  apply execLoop_isSome
  have hle : unvisitedCount g [] ≤ distinctNodeCount g := by
    unfold unvisitedCount distinctNodeCount
    exact List.length_filter_le _ _
  omega

/-- Witness for C6: the loop on the empty graph returns within one
iteration. -/
theorem c6_witness :
    (execLoop Graph.empty ⟨[]⟩ 1 (initialContext []) [] [] Graph.empty.startNode).isSome :=
  c6_termination Graph.empty ⟨[]⟩ [] 1 (by decide)

/-- C7 (amended): the weather handler errs exactly when the city string
read from state is empty — true when the entry is absent, a non-string
value, or the empty string — or the weather function is unset, or the
weather function errs; on success it stores the temperature under
"weather.temperature" and returns a completed step. -/
theorem c7_weather (weatherFn : Option WeatherFn) (ec : ExecutionContext) (node : Node) :
    ((weatherHandler weatherFn ec node).2.2.isSome ↔
      (ec.getString "form.city" = "" ∨ weatherFn = none ∨
        ∃ f e, weatherFn = some f ∧ f (ec.getString "form.city") = .error e)) ∧
    (∀ f t, weatherFn = some f → f (ec.getString "form.city") = .ok t →
      ec.getString "form.city" ≠ "" →
      (weatherHandler weatherFn ec node).2.2 = none ∧
      (weatherHandler weatherFn ec node).2.1.status = "completed" ∧
      (weatherHandler weatherFn ec node).1.get "weather.temperature" = some (.num t)) := by
  by_cases hc : ec.getString "form.city" = ""
  · refine ⟨?_, ?_⟩
    · simp [weatherHandler, hc]
    · intro f t hf hok hne; exact absurd hc hne
  · cases hfn : weatherFn with
    | none =>
      refine ⟨?_, ?_⟩
      · simp [weatherHandler, hc]
      · intro f t hf hok hne; exact Option.noConfusion hf
    | some f =>
      cases hres : f (ec.getString "form.city") with
      | error e =>
        refine ⟨?_, ?_⟩
        · simp only [weatherHandler, hc, if_false, hres]
          constructor
          · intro _; exact Or.inr (Or.inr ⟨f, e, rfl, hres⟩)
          · intro _; simp
        · intro f' t hf' hok hne
          have hff : f = f' := by injection hf'
          rw [← hff, hres] at hok
          exact Except.noConfusion hok
      | ok t =>
        refine ⟨?_, ?_⟩
        · simp only [weatherHandler, hc, if_false, hres]
          constructor
          · intro h; simp at h
          · rintro (h | h | ⟨f', e', hf', herr⟩)
            · exact h.elim
            · exact Option.noConfusion h
            · have hff : f = f' := by injection hf'
              rw [← hff, hres] at herr
              exact Except.noConfusion herr
        · intro f' t' hf' hok hne
          have hff : f = f' := by injection hf'
          rw [← hff, hres] at hok
          have ht : t = t' := by injection hok
          subst ht
          refine ⟨?_, ?_, ?_⟩
          · simp [weatherHandler, hc, hres]
          · simp [weatherHandler, hc, hres]
          · simp [weatherHandler, hc, hres, ExecutionContext.set, ExecutionContext.get,
              lookupField]

/-- Witness for C7: a configured weather function and a non-empty city
produce a completed step and store the temperature. -/
theorem c7_witness :
    (weatherHandler (some fun _ => .ok 20) ecW nodeW).2.2 = none ∧
    (weatherHandler (some fun _ => .ok 20) ecW nodeW).2.1.status = "completed" ∧
    (weatherHandler (some fun _ => .ok 20) ecW nodeW).1.get "weather.temperature" =
      some (.num 20) :=
  (c7_weather (some fun _ => .ok 20) ecW nodeW).2 (fun _ => .ok 20) 20 rfl rfl (by decide)

/-- Counterexample to C7 as stated: with form.city bound to a non-string
value (present and distinct from the empty string) and a working weather
function, the handler still errs, because GetString's failed type
assertion yields "". -/
theorem c7_counterexample :
    (weatherHandler (some fun _ => Except.ok 20) ecC7 nodeW).2.2.isSome ∧
    ecC7.get "form.city" = some (Value.num 1) ∧
    Value.num 1 ≠ Value.str "" :=
  ⟨rfl, rfl, fun h => Value.noConfusion h⟩

/-- C8: the email handler fails exactly when the recipient email read
from state is empty or the metadata is malformed; otherwise it returns
a completed step whose emailContent subject is the metadata subject,
defaulting to "Weather Alert" when that subject is empty or absent.
(The handler has no injected send function: it composes the email
without sending, so the claim's send-failure clause can never fire.) -/
theorem c8_email (ec : ExecutionContext) (node : Node) :
    ((emailHandler ec node).2.2.isSome ↔
      (ec.getString "form.email" = "" ∨
        ∃ e, unmarshalEmailMetadata node.metadata = .error e)) ∧
    (∀ s, ec.getString "form.email" ≠ "" → unmarshalEmailMetadata node.metadata = .ok s →
      (emailHandler ec node).2.2 = none ∧
      (emailHandler ec node).2.1.status = "completed" ∧
      stepEmailSubject (emailHandler ec node).2.1 =
        some (.str (if s = "" then "Weather Alert" else s))) := by
  by_cases he : ec.getString "form.email" = ""
  · refine ⟨?_, ?_⟩
    · simp [emailHandler, he]
    · intro s hne _; exact absurd he hne
  · cases hm : unmarshalEmailMetadata node.metadata with
    | error e =>
      refine ⟨?_, ?_⟩
      · simp only [emailHandler, he, if_false, hm]
        constructor
        · intro _; exact Or.inr ⟨e, rfl⟩
        · intro _; simp
      · intro s hne hok; exact Except.noConfusion hok
    | ok s0 =>
      refine ⟨?_, ?_⟩
      · simp only [emailHandler, he, if_false, hm]
        constructor
        · intro h; simp at h
        · rintro (h | ⟨e, herr⟩)
          · exact h.elim
          · exact Except.noConfusion herr
      · intro s hne hok
        have hs : s0 = s := by injection hok
        subst hs
        by_cases hs0 : s0 = ""
        · refine ⟨?_, ?_, ?_⟩ <;>
            simp [emailHandler, he, hm, hs0, stepEmailSubject, lookupField]
        · refine ⟨?_, ?_, ?_⟩ <;>
            simp [emailHandler, he, hm, hs0, stepEmailSubject, lookupField]

/-- Witness for C8: empty metadata yields the default subject
"Weather Alert" on a completed step. -/
theorem c8_witness :
    (emailHandler ecE nodeE).2.1.status = "completed" ∧
    stepEmailSubject (emailHandler ecE nodeE).2.1 = some (.str "Weather Alert") := by
  have h := (c8_email ecE nodeE).2 "" (by decide) rfl
  exact ⟨h.2.1, by simpa using h.2.2⟩

/-- The start handler preserves and copies the step counter. -/
lemma startHandler_numbers : HandlerNumbersSteps startHandler := by
  intro ec node; exact ⟨rfl, fun _ => rfl⟩

/-- The end handler preserves and copies the step counter. -/
lemma endHandler_numbers : HandlerNumbersSteps endHandler := by
  intro ec node; exact ⟨rfl, fun _ => rfl⟩

/-- The form handler preserves and copies the step counter. -/
lemma formHandler_numbers : HandlerNumbersSteps formHandler := by
  intro ec node; exact ⟨rfl, fun _ => rfl⟩

/-- The weather handler preserves the step counter (Set only touches
state) and copies it into successful steps. -/
lemma weatherHandler_numbers (fn : Option WeatherFn) :
    HandlerNumbersSteps (weatherHandler fn) := by
  intro ec node
  by_cases hc : ec.getString "form.city" = ""
  · constructor <;> simp [weatherHandler, hc]
  · cases fn with
    | none => constructor <;> simp [weatherHandler, hc]
    | some f =>
      cases hres : f (ec.getString "form.city") with
      | error e => constructor <;> simp [weatherHandler, hc, hres]
      | ok t =>
        constructor <;> simp [weatherHandler, hc, hres, ExecutionContext.set]

/-- The condition handler preserves and copies the step counter. -/
lemma conditionHandler_numbers : HandlerNumbersSteps conditionHandler := by
  intro ec node
  cases hm : unmarshalConditionMetadata node.metadata with
  | error e => constructor <;> simp [conditionHandler, hm]
  | ok p =>
    obtain ⟨op, thr⟩ := p
    by_cases hop : op = ""
    · constructor <;> simp [conditionHandler, hm, hop]
    · constructor <;> simp [conditionHandler, hm, hop]

/-- The email handler preserves and copies the step counter. -/
lemma emailHandler_numbers : HandlerNumbersSteps emailHandler := by
  intro ec node
  by_cases he : ec.getString "form.email" = ""
  · constructor <;> simp [emailHandler, he]
  · cases hm : unmarshalEmailMetadata node.metadata with
    | error e => constructor <;> simp [emailHandler, he, hm]
    | ok s => constructor <;> simp [emailHandler, he, hm]

/-- Every handler of the provided registry numbers its steps. -/
lemma defaultRegistry_numbers (fn : Option WeatherFn) :
    RegistryNumbersSteps (defaultRegistry fn) := by
  intro t h hget
  unfold Registry.get at hget
  rw [Option.map_eq_some'] at hget
  obtain ⟨p, hfind, hsnd⟩ := hget
  have hmem := List.mem_of_find?_eq_some hfind
  simp only [defaultRegistry, List.mem_cons, List.not_mem_nil, or_false] at hmem
  rcases hmem with h1 | h1 | h1 | h1 | h1 | h1 <;> rw [h1] at hsnd <;> rw [← hsnd]
  · exact startHandler_numbers
  · exact endHandler_numbers
  · exact formHandler_numbers
  · exact weatherHandler_numbers fn
  · exact conditionHandler_numbers
  · exact emailHandler_numbers

/-- Appending a correctly numbered step keeps the trace correctly
numbered. -/
lemma stepsNumbered_append (steps : List ExecutionStep) (step : ExecutionStep)
    (hsteps : ∀ i (hi : i < steps.length), (steps.get ⟨i, hi⟩).stepNumber = i + 1)
    (hstep : step.stepNumber = steps.length + 1) :
    ∀ i (hi : i < (steps ++ [step]).length),
      ((steps ++ [step]).get ⟨i, hi⟩).stepNumber = i + 1 := by
  intro i hi
  rcases Nat.lt_or_ge i steps.length with hlt | hge
  · have heq : (steps ++ [step]).get ⟨i, hi⟩ = steps.get ⟨i, hlt⟩ := by
      simp [List.get_eq_getElem, List.getElem_append_left hlt]
    rw [heq]; exact hsteps i hlt
  · have hlen : i < steps.length + 1 := by simpa [List.length_append] using hi
    have hieq : i = steps.length := by omega
    subst hieq
    have heq : (steps ++ [step]).get ⟨steps.length, hi⟩ = step := by
      simp [List.get_eq_getElem, List.getElem_concat_length steps step steps.length rfl]
    rw [heq, hstep]

/-- With a step-numbering registry, the loop keeps the invariant
"the i-th accumulated step carries number i+1 and the counter equals
the trace length", so an error-free run is numbered 1..n. -/
lemma execLoop_stepNumbers {g : Graph} {reg : Registry} (hreg : RegistryNumbersSteps reg) :
    ∀ (fuel : Nat) (ec : ExecutionContext) (steps : List ExecutionStep)
      (visited : List String) (cur : String) (res : List ExecutionStep × Option String),
      execLoop g reg fuel ec steps visited cur = some res → res.2 = none →
      ec.stepNumber = steps.length →
      (∀ i (hi : i < steps.length), (steps.get ⟨i, hi⟩).stepNumber = i + 1) →
      (∀ i (hi : i < res.1.length), (res.1.get ⟨i, hi⟩).stepNumber = i + 1) := by
  intro fuel
  induction fuel with
  | zero =>
    intro ec steps visited cur res hrun
    simp [execLoop] at hrun
  | succ n ih =>
    intro ec steps visited cur res hrun hok hec hsteps
    by_cases hcur : cur = ""
    · simp only [execLoop, hcur, if_true] at hrun
      have hres : res = (steps, none) := by
        injection hrun with h; exact h.symm
      rw [hres]; exact hsteps
    · by_cases hvis : visited.contains cur = true
      · have hv : cur ∈ visited := by simpa using hvis
        rw [execLoop_cycle g reg n ec steps visited cur hcur hvis] at hrun
        have hres : res = ([], some ("cycle detected at node " ++ cur)) := by
          injection hrun with h; exact h.symm
        rw [hres] at hok; cases hok
      · have hvis' : visited.contains cur = false := eq_false_of_ne_true hvis
        have hv : cur ∉ visited := by simpa using hvis'
        cases hnode : g.getNode cur with
        | none =>
          rw [execLoop_notFound g reg n ec steps visited cur hcur hvis' hnode] at hrun
          have hres : res = ([], some ("node not found: " ++ cur)) := by
            injection hrun with h; exact h.symm
          rw [hres] at hok; cases hok
        | some node =>
          cases hregt : Registry.get reg node.type with
          | none =>
            rw [execLoop_noHandler g reg n ec steps visited cur node hcur hvis' hnode hregt]
              at hrun
            have hres : res = ([], some ("no handler for node type: " ++ node.type)) := by
              injection hrun with h; exact h.symm
            rw [hres] at hok; cases hok
          | some handler =>
            have hnum := hreg node.type handler hregt
            rcases hh : handler { ec with stepNumber := ec.stepNumber + 1 } node
              with ⟨ec2, step, err⟩
            cases err with
            | some e =>
              rw [execLoop_handlerError g reg n ec steps visited cur node handler ec2 step e
                hcur hvis' hnode hregt hh] at hrun
              have hres : res = (steps ++ [{ step with status := "failed", error := e }],
                  some e) := by
                injection hrun with h; exact h.symm
              rw [hres] at hok; cases hok
            | none =>
              have h1 : step.stepNumber = ec.stepNumber + 1 := by
                have hcopy := (hnum { ec with stepNumber := ec.stepNumber + 1 } node).2
                rw [hh] at hcopy
                exact hcopy rfl
              have h2 : ec2.stepNumber = ec.stepNumber + 1 := by
                have hpres := (hnum { ec with stepNumber := ec.stepNumber + 1 } node).1
                rw [hh] at hpres
                exact hpres
              have hsteps2 := stepsNumbered_append steps step hsteps (by rw [h1, hec])
              by_cases hend : node.type = "end"
              · rw [execLoop_success_end g reg n ec steps visited cur node handler ec2 step
                  hcur hvis' hnode hregt hh hend] at hrun
                have hres : res = (steps ++ [step], none) := by
                  injection hrun with h; exact h.symm
                rw [hres]
                exact hsteps2
              · rw [execLoop_success_cont g reg n ec steps visited cur node handler ec2 step
                  hcur hvis' hnode hregt hh hend] at hrun
                exact ih ec2 (steps ++ [step]) (cur :: visited) (getNextNode g cur step) res
                  hrun hok (by rw [h2, hec]; simp) hsteps2

/-- The initial-state copy never touches the step counter. -/
lemma foldl_set_stepNumber (st : List (String × Value)) :
    ∀ ec : ExecutionContext,
      (st.foldl (fun ec kv => ec.set kv.1 kv.2) ec).stepNumber = ec.stepNumber := by
  induction st with
  | nil => intro ec; rfl
  | cons kv rest ih => intro ec; rw [List.foldl_cons]; exact ih _

/-- C10 (amended): for every error-free execution under the provided
handler set, the i-th step of the trace (counting from 1) carries
StepNumber i — the executor increments the counter exactly once before
each handler call and every provided handler copies it into the step it
returns on success.  (When a handler fails, the appended failed step is
the handler's zero-value step, whose StepNumber is 0; see the
counterexample.) -/
theorem c10_step_numbers (fn : Option WeatherFn) (g : Graph)
    (st : List (String × Value)) (steps : List ExecutionStep)
    (hrun : execute g (defaultRegistry fn) st = (steps, none)) :
    ∀ i (hi : i < steps.length), (steps.get ⟨i, hi⟩).stepNumber = i + 1 := by
  unfold execute at hrun
  cases hval : g.validate with
  | some e =>
    rw [hval] at hrun
    have : (some e : Option String) = none := congrArg Prod.snd hrun
    cases this
  | none =>
    rw [hval] at hrun
    have hsome := execLoop_isSome g (defaultRegistry fn) (distinctNodeCount g + 1)
      (initialContext st) [] [] g.startNode
      (by
        have hle : unvisitedCount g [] ≤ distinctNodeCount g := by
          unfold unvisitedCount distinctNodeCount
          exact List.length_filter_le _ _
        omega)
    obtain ⟨res, hres⟩ := Option.isSome_iff_exists.mp hsome
    rw [hres] at hrun
    simp only [Option.getD_some] at hrun
    have hnum := execLoop_stepNumbers (defaultRegistry_numbers fn) (distinctNodeCount g + 1)
      (initialContext st) [] [] g.startNode res hres
      (by rw [hrun])
      (by unfold initialContext; rw [foldl_set_stepNumber]; rfl)
      (by intro i hi; exact absurd hi (Nat.not_lt_zero i))
    rw [hrun] at hnum
    exact hnum

/-- Witness for C10: executing the start-to-end graph with the provided
handlers yields an error-free trace whose first step carries number 1. -/
theorem c10_witness :
    execute gW (defaultRegistry none) [] = (stepsW, none) ∧
    (stepsW.get ⟨0, by decide⟩).stepNumber = 0 + 1 :=
  ⟨rfl, c10_step_numbers none gW [] stepsW rfl 0 (by decide)⟩

/-- Counterexample to C10 as stated: when the weather handler fails,
the appended failed step is the handler's zero-value step, so the
second step of the trace carries StepNumber 0, not 2. -/
theorem c10_counterexample :
    ((execute gBad (defaultRegistry none) [("form.city", Value.str "X")]).1.map
        ExecutionStep.stepNumber) = [1, 0] ∧
    ((execute gBad (defaultRegistry none) [("form.city", Value.str "X")]).2).isSome ∧
    [1, 0] ≠ [0 + 1, 1 + 1] :=
  ⟨rfl, rfl, by decide⟩

end Engine
